import Mathlib

/-!
Verification of the GWAS workflow orchestration stack (aws-regenie).

The development shallowly embeds the Step Functions state machine built by
`WorkflowStack.createGwasWorkflow` (source: the workflow stack file), the
AWS Batch job definition built by `RegenieJobDefinition`, the Batch compute
environment and job queue of the compute stack, and the manifest trigger
pipeline of the storage and queue-processing stacks.

The state machine is embedded in two layers:
 * a static graph over the named states (`nextState`, `catchTarget`,
   `stateMaxConcurrency`), read directly off the `.next` / `.addCatch` /
   `maxConcurrency` calls of the source;
 * an operational semantics `run` that, given an environment `Env` assigning
   outcomes to every external collaborator (the Lambda functions and the
   Batch jobs), produces the linear trace of events of one execution
   together with its terminal status.  Map-state iterations are generated
   in plan order (a canonical linearization; the properties proved below
   are insensitive to the interleaving of phase-2 items).
-/

/-- The named states of the `GwasWorkflow` state machine, one per construct
created in `createGwasWorkflow`. -/
inductive StateName where
  | initializeWorkflow
  | calculateBatchJobs
  | submitStep1Jobs
  | submitStep2Jobs
  | handleJobErrors
  | handleSuccess
  | workflowFailed
  | workflowSucceeded
deriving DecidableEq, Repr

/-- The `.next` chain of the source: Initialize → Calculate → SubmitStep1Jobs
→ SubmitStep2Jobs → HandleSuccess → WorkflowSucceeded, and HandleJobErrors →
WorkflowFailed.  The Fail and Succeed states have no successor. -/
def nextState : StateName → Option StateName
  | .initializeWorkflow => some .calculateBatchJobs
  | .calculateBatchJobs => some .submitStep1Jobs
  | .submitStep1Jobs => some .submitStep2Jobs
  | .submitStep2Jobs => some .handleSuccess
  | .handleSuccess => some .workflowSucceeded
  | .handleJobErrors => some .workflowFailed
  | .workflowFailed => none
  | .workflowSucceeded => none

/-- The `.addCatch` edges of the source: both Map states catch `States.ALL`
into `HandleJobErrors`; no other state has a catcher. -/
def catchTarget : StateName → Option StateName
  | .submitStep1Jobs => some .handleJobErrors
  | .submitStep2Jobs => some .handleJobErrors
  | _ => none

/-- The `maxConcurrency` attributes of the two Map states: 1 for the phase-1 Map
(the source comment: Step 1 is always a single job) and 50 for the phase-2
Map.  No other state is a Map. -/
def stateMaxConcurrency : StateName → Option Nat
  | .submitStep1Jobs => some 1
  | .submitStep2Jobs => some 50
  | _ => none

/-- No `.addRetry` call appears anywhere in `createGwasWorkflow`: the state
machine itself configures no retrier on any state. -/
def stateRetrier : StateName → Option Nat := fun _ => none

/-- All successor states (normal chain plus catch edge). -/
def successors (s : StateName) : List StateName :=
  (nextState s).toList ++ (catchTarget s).toList

/-- The two terminal states: the `sfn.Fail` and `sfn.Succeed` constructs. -/
def isTerminal : StateName → Bool
  | .workflowFailed => true
  | .workflowSucceeded => true
  | _ => false

/-- One item of a Map state item list, as shaped by the `itemSelector` of
the source (`jobId`, `Command`, `stepNumber`, with `workflowId` added from
the surrounding context). -/
structure Job where
  jobId : String
  stepNumber : Nat
  command : String
deriving DecidableEq, Repr

/-- Terminal outcome reported by the Batch `RUN_JOB` (`.sync`) integration
for one submitted job. -/
inductive JobOutcome where
  | succeeded
  | failed
deriving DecidableEq, Repr

/-- Observable events of one execution of the state machine. -/
inductive Event where
  | enter (s : StateName)
  | submit (phase : Nat) (j : Job)
  | jobTerminal (phase : Nat) (j : Job) (o : JobOutcome)
  | errorHandlerInvoked (workflowId : String) (failedJobs : List Job)
  | successHandlerInvoked (workflowId : String) (resultsBucketPath : String)
      (completionTime : String)
deriving DecidableEq, Repr

/-- Terminal status of one execution: `completed` via the Succeed state,
`failedState` via the Fail state, or `aborted` when an uncaught task error
ends the execution, carrying the error detail recorded on the execution. -/
inductive ExecStatus where
  | completed
  | failedState
  | aborted (detail : String)
deriving DecidableEq, Repr

/-- Every status other than `completed` is a failed execution. -/
def isFailure : ExecStatus → Bool
  | .completed => false
  | _ => true

/-- Modelled from the spec: the outcomes of the external collaborators of one
execution.  The workflow-init, job-calculator, command-parser, error-handler
and success-handler Lambda functions are code of this repository that is not
under src/ (only the stacks wiring them appear there); per the spec they
either succeed or fail carrying a structured error detail (for the init and
calculator Lambdas, the input errors `DataFormatError`,
`NoChromosomesDetectedError`, `InvalidParameterError`, `EmptyPlanError`).
`step1Jobs` and `step2Jobs` are the two job lists produced by the job
calculator (`$.JobCalculation.Payload.step1Jobs` / `step2Jobs`), and
`batch1` / `batch2` give the terminal outcome of each submitted Batch job. -/
structure Env where
  workflowId : String
  resultsBucketPath : String
  enteredTime : String
  initError : Option String
  calcError : Option String
  step1Jobs : List Job
  step2Jobs : List Job
  parse1Ok : Job → Bool
  batch1 : Job → JobOutcome
  parse2Ok : Job → Bool
  batch2 : Job → JobOutcome
  errorHandlerError : Option String
  successError : Option String

/-- One Map state and its item processing (command parse, then Batch submit with
`RUN_JOB`, awaited to a terminal state), iterated over the item list in plan
order.  Returns the emitted events and the first failed item, if any; the
first failure fails the Map state, so later items are not processed. -/
def phaseItems (ph : Nat) (pOk : Job → Bool) (b : Job → JobOutcome) :
    List Job → List Event × Option Job
  | [] => ([], none)
  | j :: rest =>
    if pOk j then
      match b j with
      | .succeeded =>
        let r := phaseItems ph pOk b rest
        (Event.submit ph j :: Event.jobTerminal ph j .succeeded :: r.1, r.2)
      | .failed =>
        ([Event.submit ph j, Event.jobTerminal ph j .failed], some j)
    else ([], some j)

/-- The phase-1 Map segment of an execution. -/
def step1Seg (env : Env) : List Event × Option Job :=
  phaseItems 1 env.parse1Ok env.batch1 env.step1Jobs

/-- The phase-2 Map segment of an execution. -/
def step2Seg (env : Env) : List Event × Option Job :=
  phaseItems 2 env.parse2Ok env.batch2 env.step2Jobs

/-- The failure branch: `HandleJobErrors` is invoked with the `workflowId`
and the failed-job details (payload fields `workflowId` and
`$.error.Cause[*].ErrorDetails` of the source), then the `WorkflowFailed`
Fail state is entered; if the error-handler Lambda itself fails, the
execution aborts instead (no catcher on `HandleJobErrors`). -/
def failTail (env : Env) (fj : List Job) : List Event × ExecStatus :=
  match env.errorHandlerError with
  | some d =>
      ([Event.enter .handleJobErrors,
        Event.errorHandlerInvoked env.workflowId fj], .aborted d)
  | none =>
      ([Event.enter .handleJobErrors,
        Event.errorHandlerInvoked env.workflowId fj,
        Event.enter .workflowFailed], .failedState)

/-- The success branch: `HandleSuccess` is invoked with the `workflowId`,
`resultsBucketPath` and `$$.State.EnteredTime` (payload of the source), then
the `WorkflowSucceeded` Succeed state is entered; if the success-handler
Lambda fails, the execution aborts (no catcher on `HandleSuccess`). -/
def successTail (env : Env) : List Event × ExecStatus :=
  match env.successError with
  | some d =>
      ([Event.enter .handleSuccess,
        Event.successHandlerInvoked env.workflowId env.resultsBucketPath
          env.enteredTime], .aborted d)
  | none =>
      ([Event.enter .handleSuccess,
        Event.successHandlerInvoked env.workflowId env.resultsBucketPath
          env.enteredTime,
        Event.enter .workflowSucceeded], .completed)

/-- One execution of the `GwasWorkflow` state machine: the chain
`initializeWorkflow.next(calculateBatchJobs)`,
`calculateBatchJobs.next(submitStep1Jobs)`,
`submitStep1Jobs.next(submitStep2Jobs)`,
`submitStep2Jobs.next(handleSuccess)`, `handleSuccess.next(workflowSuccess)`,
with both Map states catching all errors into `handleJobErrors`, which is
chained to the `workflowFailed` Fail state.  `InitializeWorkflow` and
`CalculateBatchJobs` have no catcher, so their errors abort the execution. -/
def run (env : Env) : List Event × ExecStatus :=
  match env.initError with
  | some d => ([Event.enter .initializeWorkflow], .aborted d)
  | none =>
    match env.calcError with
    | some d =>
        ([Event.enter .initializeWorkflow, Event.enter .calculateBatchJobs],
         .aborted d)
    | none =>
      let s1 := step1Seg env
      match s1.2 with
      | some j =>
        let t := failTail env [j]
        ([Event.enter .initializeWorkflow, Event.enter .calculateBatchJobs,
          Event.enter .submitStep1Jobs] ++ s1.1 ++ t.1, t.2)
      | none =>
        let s2 := step2Seg env
        match s2.2 with
        | some j =>
          let t := failTail env [j]
          ([Event.enter .initializeWorkflow, Event.enter .calculateBatchJobs,
            Event.enter .submitStep1Jobs] ++ s1.1 ++
            [Event.enter .submitStep2Jobs] ++ s2.1 ++ t.1, t.2)
        | none =>
          let t := successTail env
          ([Event.enter .initializeWorkflow, Event.enter .calculateBatchJobs,
            Event.enter .submitStep1Jobs] ++ s1.1 ++
            [Event.enter .submitStep2Jobs] ++ s2.1 ++ t.1, t.2)

/-- The failed-job detail list handed to the error handler: the first failed
item of the phase that failed. -/
def failedItems (env : Env) : List Job :=
  match (step1Seg env).2 with
  | some j => [j]
  | none =>
    match (step2Seg env).2 with
    | some j => [j]
    | none => []

/-- Every item of the list parses and its Batch job succeeds. -/
def allItemsOk (pOk : Job → Bool) (b : Job → JobOutcome) (l : List Job) : Bool :=
  l.all fun j => pOk j && decide (b j = JobOutcome.succeeded)

/-- The prefix of a trace strictly before the first event satisfying `p`. -/
def beforeFirst (p : Event → Bool) (tr : List Event) : List Event :=
  tr.takeWhile fun e => ! p e

/-- Recognizer for phase-2 submission events. -/
def isSubmit2Event : Event → Bool
  | .submit 2 _ => true
  | _ => false

/-- Recognizer for entry into the terminal Fail state. -/
def isEnterWorkflowFailed (e : Event) : Bool :=
  decide (e = Event.enter .workflowFailed)

/-- Recognizer for entry into the terminal Succeed state. -/
def isEnterWorkflowSucceeded (e : Event) : Bool :=
  decide (e = Event.enter .workflowSucceeded)

/-- Checks that every phase-`ph` submission in the trace is immediately
followed by the terminal event of the same job: the serialized (concurrency
1) submission discipline, nothing else submitted while a job is awaited. -/
def submitsFollowedByTerminal (ph : Nat) : List Event → Bool
  | [] => true
  | .submit p j :: rest =>
    if p = ph then
      match rest with
      | .jobTerminal p2 j2 _ :: _ =>
        decide (p2 = ph) && decide (j2 = j) && submitsFollowedByTerminal ph rest
      | _ => false
    else submitsFollowedByTerminal ph rest
  | _ :: rest => submitsFollowedByTerminal ph rest

/-- Every phase-`ph` submission event in the trace. -/
def isSubmitOf (ph : Nat) : Event → Bool
  | .submit p _ => decide (p = ph)
  | _ => false

/-- Configuration knobs of `RegenieJobDefinitionProps` (the optional construct
inputs relevant to the produced job definition). -/
structure RegenieJobDefProps where
  regenieVersion : Option String
  vcpus : Option Nat
  memoryMiB : Option Nat
deriving DecidableEq, Repr

/-- The fields of the `CfnJobDefinition` produced by `RegenieJobDefinition`
that bear on execution attempts and timeouts. -/
structure JobDefinitionConfig where
  imageTag : String
  vcpusValue : String
  memoryValue : String
  retryAttempts : Nat
  attemptDurationSeconds : Nat
deriving DecidableEq, Repr

/-- The `RegenieJobDefinition` construct: image tag defaults to latest, vcpus
to 4, memory to 16384, `retryStrategy.attempts` is the literal 2, and the
attempt timeout is 7200 seconds. -/
def regenieJobDefinition (p : RegenieJobDefProps) : JobDefinitionConfig :=
  { imageTag := p.regenieVersion.getD "latest"
  , vcpusValue := (p.vcpus.map toString).getD "4"
  , memoryValue := (p.memoryMiB.map toString).getD "16384"
  , retryAttempts := 2
  , attemptDurationSeconds := 7200 }

/-- The props used by the compute stack (`regenieVersion = v3.0.1.gz`, vcpus
and memory left to their defaults). -/
def deployedRegenieProps : RegenieJobDefProps :=
  { regenieVersion := some "v3.0.1.gz", vcpus := none, memoryMiB := none }

/-- Capacity-related fields of the `GwasComputeEnvironment` in the compute
stack: a managed SPOT environment whose only capacity bounds are expressed
in vCPUs. -/
structure ComputeResourcesSpec where
  resourceKind : String
  maxvCpus : Nat
  minvCpus : Nat
  desiredvCpus : Nat
  allocationStrategy : String
deriving DecidableEq, Repr

/-- The deployed compute environment of the compute stack. -/
def gwasComputeEnvironment : ComputeResourcesSpec :=
  { resourceKind := "SPOT"
  , maxvCpus := 1000
  , minvCpus := 1
  , desiredvCpus := 1
  , allocationStrategy := "SPOT_CAPACITY_OPTIMIZED" }

/-- The `GwasJobQueue` of the compute stack: its only properties are a
priority and the compute environment order; it carries no job-count
concurrency ceiling. -/
structure JobQueueSpec where
  priority : Nat
  computeEnvironmentOrder : List Nat
deriving DecidableEq, Repr

/-- The deployed job queue. -/
def gwasJobQueue : JobQueueSpec :=
  { priority := 1, computeEnvironmentOrder := [1] }

/-- Start/finish actions of concurrent Map-state iterations, used to model
the bounded-concurrency admission rule of the Map construct of phase-2 items. -/
inductive MapAction where
  | start (jobIndex : Nat)
  | finish (jobIndex : Nat)
deriving DecidableEq, Repr

/-- The admission rule of the Map construct along an action sequence, starting
from `cur` items in flight: an item may start only while fewer than `c`
items are in flight, and a finish requires an item in flight. -/
def mapAdmissibleFrom (c : Nat) (cur : Nat) : List MapAction → Bool
  | [] => true
  | .start _ :: rest => decide (cur < c) && mapAdmissibleFrom c (cur + 1) rest
  | .finish _ :: rest => decide (0 < cur) && mapAdmissibleFrom c (cur - 1) rest

/-- The in-flight counts observed after each action of the sequence. -/
def flightsFrom (cur : Nat) : List MapAction → List Nat
  | [] => []
  | .start _ :: rest => (cur + 1) :: flightsFrom (cur + 1) rest
  | .finish _ :: rest => (cur - 1) :: flightsFrom (cur - 1) rest

/-- Fifty-one simultaneous starts with no finish in between. -/
def fiftyOneStarts : List MapAction :=
  (List.range 51).map MapAction.start

/-- An `Object Created` event from the data bucket as EventBridge sees it:
source, detail type, bucket name and object key. -/
structure S3ObjectCreatedEvent where
  source : String
  detailType : String
  bucketName : String
  objectKey : String
deriving DecidableEq, Repr

/-- Suffix test on the character sequences of two strings. -/
def strEndsWith (s post : String) : Bool :=
  post.data.isSuffixOf s.data

/-- The event pattern of `ManifestEventBridgeRule` in the storage stack:
source `aws.s3`, detail type `Object Created`, bucket name equal to the data
bucket, and object key matched by the single suffix condition `.json`. -/
def manifestRuleMatches (dataBucketName : String) (e : S3ObjectCreatedEvent) : Bool :=
  decide (e.source = "aws.s3") && decide (e.detailType = "Object Created") &&
    decide (e.bucketName = dataBucketName) && strEndsWith e.objectKey ".json"

/-- Nodes of the manifest trigger pipeline (storage stack and
queue-processing stack resources). -/
inductive TriggerNode where
  | s3EventRule
  | manifestTopic
  | manifestQueue
  | manifestProcessorFn
  | gwasStateMachine
deriving DecidableEq, Repr

/-- Delivery edges of the trigger pipeline as wired in the source: the rule
targets the SNS topic (`manifestRule.addTarget`), the topic feeds the SQS
queue (`addSubscription(SqsSubscription(manifestQueue))`), the queue drives
the processor Lambda (`EventSourceMapping`), and the processor starts the
state machine (`states:StartExecution` on `STATE_MACHINE_ARN`). -/
def triggerEdge : TriggerNode → Option TriggerNode
  | .s3EventRule => some .manifestTopic
  | .manifestTopic => some .manifestQueue
  | .manifestQueue => some .manifestProcessorFn
  | .manifestProcessorFn => some .gwasStateMachine
  | .gwasStateMachine => none

/-- Checks that every phase-2 submission in the trace is of a job whose
Batch outcome under `b2` is success. -/
def submittedPhase2AllSucceeded (env : Env) : Bool :=
  (run env).1.all fun e =>
    match e with
    | .submit 2 j => decide (env.batch2 j = JobOutcome.succeeded)
    | _ => true

/-- A concrete phase-1 job, as produced by the job calculator. -/
def step1Job : Job :=
  { jobId := "wf-1-step1", stepNumber := 1, command := "regenie --step 1" }

/-- A concrete phase-2 job for chromosome 1. -/
def chr1Job : Job :=
  { jobId := "wf-1-step2-chr1", stepNumber := 2
  , command := "regenie --step 2 --chr 1" }

/-- A concrete phase-2 job for chromosome 2. -/
def chr2Job : Job :=
  { jobId := "wf-1-step2-chr2", stepNumber := 2
  , command := "regenie --step 2 --chr 2" }

/-- An execution environment in which every collaborator succeeds. -/
def envAllGood : Env :=
  { workflowId := "wf-1"
  , resultsBucketPath := "s3://results/wf-1"
  , enteredTime := "2026-01-01T00:00:00Z"
  , initError := none
  , calcError := none
  , step1Jobs := [step1Job]
  , step2Jobs := [chr1Job, chr2Job]
  , parse1Ok := fun _ => true
  , batch1 := fun _ => JobOutcome.succeeded
  , parse2Ok := fun _ => true
  , batch2 := fun _ => JobOutcome.succeeded
  , errorHandlerError := none
  , successError := none }

/-- As `envAllGood` but the single phase-1 Batch job fails. -/
def envStep1Fails : Env :=
  { envAllGood with batch1 := fun _ => JobOutcome.failed }

/-- As `envAllGood` but the plan has no phase-1 job (a run with
startPhase 2). -/
def envNoStep1 : Env :=
  { envAllGood with step1Jobs := [] }

/-- As `envAllGood` but the success-handler Lambda invocation fails. -/
def envSuccessFails : Env :=
  { envAllGood with successError := some "success handler crashed" }

/-- As `envAllGood` but the workflow-init Lambda fails with a structured
input error. -/
def envInitFails : Env :=
  { envAllGood with initError := some "DataFormatError: unreadable variant index" }

/-- As `envAllGood` but the job-calculator Lambda fails with a structured
input error. -/
def envCalcFails : Env :=
  { envAllGood with calcError := some "NoChromosomesDetectedError" }

/-- Every event emitted by a Map segment is a submission or a job-terminal
event of the phase of that segment. -/
theorem phaseItems_mem {ph : Nat} {pOk : Job → Bool} {b : Job → JobOutcome}
    {l : List Job} {e : Event} (h : e ∈ (phaseItems ph pOk b l).1) :
    (∃ j, e = Event.submit ph j) ∨ ∃ j o, e = Event.jobTerminal ph j o := by
  induction l with
  | nil => simp [phaseItems] at h
  | cons j rest ih =>
    by_cases hp : pOk j
    · cases hb : b j with
      | succeeded =>
        simp only [phaseItems, hp, if_true, hb, List.mem_cons] at h
        rcases h with rfl | rfl | h
        · exact Or.inl ⟨j, rfl⟩
        · exact Or.inr ⟨j, .succeeded, rfl⟩
        · exact ih h
      | failed =>
        simp only [phaseItems, hp, if_true, hb, List.mem_cons] at h
        rcases h with rfl | rfl | h
        · exact Or.inl ⟨j, rfl⟩
        · exact Or.inr ⟨j, .failed, rfl⟩
        · exact absurd h (List.not_mem_nil e)
    · simp [phaseItems, hp] at h

/-- A Map segment reports no failed item exactly when every item parses and
its Batch job succeeds. -/
theorem phaseItems_none_iff {ph : Nat} {pOk : Job → Bool} {b : Job → JobOutcome}
    {l : List Job} :
    (phaseItems ph pOk b l).2 = none ↔ allItemsOk pOk b l = true := by
  induction l with
  | nil => simp [phaseItems, allItemsOk]
  | cons j rest ih =>
    by_cases hp : pOk j
    · cases hb : b j with
      | succeeded =>
        simp only [phaseItems, hp, if_true, hb, allItemsOk, List.all_cons]
        simpa [allItemsOk, hp, hb] using ih
      | failed => simp [phaseItems, hp, hb, allItemsOk]
    · simp [phaseItems, hp, allItemsOk]

/-- When a Map segment succeeds, every item of its list was submitted and
reached a succeeded terminal state, in that segment. -/
theorem phaseItems_none_mem {ph : Nat} {pOk : Job → Bool} {b : Job → JobOutcome}
    {l : List Job} (h : (phaseItems ph pOk b l).2 = none) :
    ∀ j ∈ l, Event.submit ph j ∈ (phaseItems ph pOk b l).1 ∧
      Event.jobTerminal ph j .succeeded ∈ (phaseItems ph pOk b l).1 := by
  induction l with
  | nil => simp
  | cons j0 rest ih =>
    have hall := phaseItems_none_iff.mp h
    simp only [allItemsOk, List.all_cons, Bool.and_eq_true, decide_eq_true_eq] at hall
    obtain ⟨⟨hp, hb⟩, hrest⟩ := hall
    have hrest2 : (phaseItems ph pOk b rest).2 = none :=
      phaseItems_none_iff.mpr hrest
    intro j hj
    simp only [phaseItems, hp, if_true, hb]
    rcases List.mem_cons.mp hj with rfl | hj
    · constructor <;> simp
    · have := ih hrest2 j hj
      constructor
      · simp [this.1]
      · simp [this.2]

/-- A `takeWhile` passes over a block on which the predicate holds. -/
theorem takeWhile_append_of_all {A B : List Event} {p : Event → Bool}
    (h : ∀ e ∈ A, p e = true) :
    (A ++ B).takeWhile p = A ++ B.takeWhile p := by
  induction A with
  | nil => rfl
  | cons x xs ih =>
    simp only [List.cons_append, List.takeWhile_cons, h x (by simp)]
    simp [ih fun e he => h e (by simp [he])]

/-- Membership in a leading block carries into `beforeFirst` when the block
is free of the stopping event. -/
theorem mem_beforeFirst_of_mem {A B : List Event} {p : Event → Bool}
    {e : Event} (he : e ∈ A) (h : ∀ x ∈ A, p x = false) :
    e ∈ beforeFirst p (A ++ B) := by
  unfold beforeFirst
  rw [takeWhile_append_of_all (by intro x hx; simp [h x hx])]
  exact List.mem_append_left _ he

/-- A trace without phase-`ph` submissions trivially satisfies the
submission-awaited-serially discipline for phase `ph`. -/
theorem sfbt_of_no_submit {ph : Nat} {l : List Event}
    (h : ∀ e ∈ l, isSubmitOf ph e = false) :
    submitsFollowedByTerminal ph l = true := by
  induction l with
  | nil => rfl
  | cons e rest ih =>
    have hrest : submitsFollowedByTerminal ph rest = true :=
      ih fun x hx => h x (by simp [hx])
    cases e with
    | submit p j =>
      have := h (Event.submit p j) (by simp)
      simp only [isSubmitOf, decide_eq_false_iff_not] at this
      simp [submitsFollowedByTerminal, this, hrest]
    | enter s => simpa [submitsFollowedByTerminal] using hrest
    | jobTerminal p j o => simpa [submitsFollowedByTerminal] using hrest
    | errorHandlerInvoked w fj => simpa [submitsFollowedByTerminal] using hrest
    | successHandlerInvoked w r t => simpa [submitsFollowedByTerminal] using hrest

/-- A Map segment of phase `ph` composed with any continuation satisfying
the discipline satisfies the discipline: each submission it emits is
immediately followed by the terminal event of that job. -/
theorem sfbt_phaseItems_append {ph : Nat} {pOk : Job → Bool}
    {b : Job → JobOutcome} {l : List Job} {ys : List Event}
    (hys : submitsFollowedByTerminal ph ys = true) :
    submitsFollowedByTerminal ph ((phaseItems ph pOk b l).1 ++ ys) = true := by
  induction l with
  | nil => simpa [phaseItems] using hys
  | cons j rest ih =>
    by_cases hp : pOk j
    · cases hb : b j with
      | succeeded =>
        simp only [phaseItems, hp, if_true, hb, List.cons_append]
        simpa [submitsFollowedByTerminal] using ih
      | failed =>
        simp only [phaseItems, hp, if_true, hb, List.cons_append]
        simpa [submitsFollowedByTerminal] using hys
    · simpa [phaseItems, hp] using hys

/-- The discipline checker ignores a leading state-entry event. -/
theorem sfbt_cons_enter {ph : Nat} {s : StateName} {l : List Event} :
    submitsFollowedByTerminal ph (Event.enter s :: l) =
      submitsFollowedByTerminal ph l := rfl

/-- State-entry events never come from a Map segment. -/
theorem enter_not_mem_phaseItems {ph : Nat} {pOk : Job → Bool}
    {b : Job → JobOutcome} {l : List Job} {s : StateName} :
    Event.enter s ∉ (phaseItems ph pOk b l).1 := by
  intro h
  rcases phaseItems_mem h with ⟨j, hj⟩ | ⟨j, o, hj⟩ <;> cases hj

/-- Error-handler invocation events never come from a Map segment. -/
theorem errorHandler_not_mem_phaseItems {ph : Nat} {pOk : Job → Bool}
    {b : Job → JobOutcome} {l : List Job} {w : String} {fj : List Job} :
    Event.errorHandlerInvoked w fj ∉ (phaseItems ph pOk b l).1 := by
  intro h
  rcases phaseItems_mem h with ⟨j, hj⟩ | ⟨j, o, hj⟩ <;> cases hj

/-- Success-handler invocation events never come from a Map segment. -/
theorem successHandler_not_mem_phaseItems {ph : Nat} {pOk : Job → Bool}
    {b : Job → JobOutcome} {l : List Job} {w r t : String} :
    Event.successHandlerInvoked w r t ∉ (phaseItems ph pOk b l).1 := by
  intro h
  rcases phaseItems_mem h with ⟨j, hj⟩ | ⟨j, o, hj⟩ <;> cases hj

/-- A Map segment emits no submission of a different phase. -/
theorem submit_not_mem_phaseItems_of_ne {ph p2 : Nat} {pOk : Job → Bool}
    {b : Job → JobOutcome} {l : List Job} {j : Job} (hne : p2 ≠ ph) :
    Event.submit p2 j ∉ (phaseItems ph pOk b l).1 := by
  intro h
  rcases phaseItems_mem h with ⟨j2, hj⟩ | ⟨j2, o, hj⟩ <;>
    first
    | (injection hj with h1 h2; exact hne h1)
    | cases hj

/-- The last element of a trace extended by one event. -/
theorem getLast_append_single {l : List Event} {a : Event} :
    (l ++ [a]).getLast? = some a := List.getLast?_concat l

/-- Shape of an execution whose init Lambda fails. -/
theorem run_eq_initFail {env : Env} {d : String} (h : env.initError = some d) :
    run env = ([Event.enter .initializeWorkflow], .aborted d) := by
  simp [run, h]

/-- Shape of an execution whose job-calculator Lambda fails. -/
theorem run_eq_calcFail {env : Env} {d : String} (h0 : env.initError = none)
    (h : env.calcError = some d) :
    run env =
      ([Event.enter .initializeWorkflow, Event.enter .calculateBatchJobs],
       .aborted d) := by
  simp [run, h0, h]

/-- Shape of an execution whose phase-1 Map fails. -/
theorem run_eq_step1Fail {env : Env} {j : Job} (h0 : env.initError = none)
    (h1 : env.calcError = none) (h2 : (step1Seg env).2 = some j) :
    run env =
      ([Event.enter .initializeWorkflow, Event.enter .calculateBatchJobs,
        Event.enter .submitStep1Jobs] ++ (step1Seg env).1 ++
        (failTail env [j]).1, (failTail env [j]).2) := by
  simp [run, h0, h1, h2]

/-- Shape of an execution whose phase-1 Map succeeds and phase-2 Map
fails. -/
theorem run_eq_step2Fail {env : Env} {j : Job} (h0 : env.initError = none)
    (h1 : env.calcError = none) (h2 : (step1Seg env).2 = none)
    (h3 : (step2Seg env).2 = some j) :
    run env =
      ([Event.enter .initializeWorkflow, Event.enter .calculateBatchJobs,
        Event.enter .submitStep1Jobs] ++ (step1Seg env).1 ++
        [Event.enter .submitStep2Jobs] ++ (step2Seg env).1 ++
        (failTail env [j]).1, (failTail env [j]).2) := by
  simp [run, h0, h1, h2, h3]

/-- Shape of an execution in which both Map states succeed. -/
theorem run_eq_bothOk {env : Env} (h0 : env.initError = none)
    (h1 : env.calcError = none) (h2 : (step1Seg env).2 = none)
    (h3 : (step2Seg env).2 = none) :
    run env =
      ([Event.enter .initializeWorkflow, Event.enter .calculateBatchJobs,
        Event.enter .submitStep1Jobs] ++ (step1Seg env).1 ++
        [Event.enter .submitStep2Jobs] ++ (step2Seg env).1 ++
        (successTail env).1, (successTail env).2) := by
  simp [run, h0, h1, h2, h3]

/-- The events of the failure branch, enumerated. -/
theorem mem_failTail {env : Env} {fj : List Job} {e : Event}
    (h : e ∈ (failTail env fj).1) :
    e = Event.enter .handleJobErrors ∨
      e = Event.errorHandlerInvoked env.workflowId fj ∨
      e = Event.enter .workflowFailed := by
  cases he : env.errorHandlerError with
  | some d => simp [failTail, he] at h; tauto
  | none => simp [failTail, he] at h; tauto

/-- The events of the success branch, enumerated. -/
theorem mem_successTail {env : Env} {e : Event}
    (h : e ∈ (successTail env).1) :
    e = Event.enter .handleSuccess ∨
      e = Event.successHandlerInvoked env.workflowId env.resultsBucketPath
        env.enteredTime ∨
      e = Event.enter .workflowSucceeded := by
  cases he : env.successError with
  | some d => simp [successTail, he] at h; tauto
  | none => simp [successTail, he] at h; tauto

/-- The failure branch performs no job submission. -/
theorem submit_not_mem_failTail {env : Env} {fj : List Job} {p : Nat}
    {j : Job} : Event.submit p j ∉ (failTail env fj).1 := by
  intro h
  rcases mem_failTail h with h | h | h <;> cases h

/-- The success branch performs no job submission. -/
theorem submit_not_mem_successTail {env : Env} {p : Nat} {j : Job} :
    Event.submit p j ∉ (successTail env).1 := by
  intro h
  rcases mem_successTail h with h | h | h <;> cases h

/-- The failure branch always ends in a failed execution status, whether or
not the error-handler Lambda itself succeeds. -/
theorem isFailure_failTail {env : Env} {fj : List Job} :
    isFailure (failTail env fj).2 = true := by
  cases he : env.errorHandlerError with
  | some d => simp [failTail, he, isFailure]
  | none => simp [failTail, he, isFailure]

/-- Membership in the second of four blocks carries into `beforeFirst` when
the first three blocks are free of the stopping event. -/
theorem mem_beforeFirst_block {p : Event → Bool} {L1 L2 L3 B : List Event}
    {e : Event} (he : e ∈ L2)
    (h1 : ∀ x ∈ L1, p x = false) (h2 : ∀ x ∈ L2, p x = false)
    (h3 : ∀ x ∈ L3, p x = false) :
    e ∈ beforeFirst p (L1 ++ (L2 ++ (L3 ++ B))) := by
  have hshape : L1 ++ (L2 ++ (L3 ++ B)) = (L1 ++ L2 ++ L3) ++ B := by
    simp [List.append_assoc]
  rw [hshape]
  apply mem_beforeFirst_of_mem
  · exact List.mem_append_left _ (List.mem_append_right _ he)
  · intro x hx
    rcases List.mem_append.mp hx with hx | hx
    · rcases List.mem_append.mp hx with hx | hx
      · exact h1 x hx
      · exact h2 x hx
    · exact h3 x hx

/-- The phase-1 Map segment contains no phase-2 submission. -/
theorem submit2_not_mem_step1Seg {env : Env} {j : Job} :
    Event.submit 2 j ∉ (step1Seg env).1 :=
  submit_not_mem_phaseItems_of_ne (by decide)

/-- The phase-2 Map segment contains no phase-1 submission. -/
theorem submit1_not_mem_step2Seg {env : Env} {j : Job} :
    Event.submit 1 j ∉ (step2Seg env).1 :=
  submit_not_mem_phaseItems_of_ne (by decide)

/-- No event of the phase-1 Map segment is a phase-2 submission. -/
theorem step1Seg_no_submit2 {env : Env} :
    ∀ x ∈ (step1Seg env).1, isSubmit2Event x = false := by
  intro x hx
  rcases phaseItems_mem hx with ⟨j, rfl⟩ | ⟨j, o, rfl⟩ <;> rfl

/-- C1: no phase-2 submission occurs before the phase-1 submission stage has
completed with its job(s) SUCCEEDED — whenever a phase-2 submission appears
in the trace, every phase-1 job parsed and succeeded, and the
succeeded terminal event lies strictly before the first phase-2 submission;
and if the phase-1 Batch job reaches FAILED, zero phase-2 submissions occur
and the execution terminates failed. -/
theorem gwas_C1 (env : Env) :
    ((∃ j, Event.submit 2 j ∈ (run env).1) →
      allItemsOk env.parse1Ok env.batch1 env.step1Jobs = true ∧
      ∀ j1 ∈ env.step1Jobs,
        Event.jobTerminal 1 j1 .succeeded ∈
          beforeFirst isSubmit2Event (run env).1) ∧
    ∀ j1 ∈ env.step1Jobs, env.parse1Ok j1 = true →
      env.batch1 j1 = JobOutcome.failed →
      (∀ j, Event.submit 2 j ∉ (run env).1) ∧ isFailure (run env).2 = true := by
  constructor
  · rintro ⟨j, hj⟩
    cases h0 : env.initError with
    | some d => rw [run_eq_initFail h0] at hj; simp at hj
    | none =>
    cases h1 : env.calcError with
    | some d => rw [run_eq_calcFail h0 h1] at hj; simp at hj
    | none =>
    cases h2 : (step1Seg env).2 with
    | some jf =>
      rw [run_eq_step1Fail h0 h1 h2] at hj
      rcases List.mem_append.mp hj with hj | hj
      · rcases List.mem_append.mp hj with hj | hj
        · simp at hj
        · exact absurd hj submit2_not_mem_step1Seg
      · exact absurd hj submit_not_mem_failTail
    | none =>
      have hall : allItemsOk env.parse1Ok env.batch1 env.step1Jobs = true :=
        phaseItems_none_iff.mp h2
      refine ⟨hall, fun j1 hj1 => ?_⟩
      have hterm : Event.jobTerminal 1 j1 .succeeded ∈ (step1Seg env).1 :=
        (phaseItems_none_mem h2 j1 hj1).2
      have hA0 : ∀ x ∈ [Event.enter StateName.initializeWorkflow,
          Event.enter StateName.calculateBatchJobs,
          Event.enter StateName.submitStep1Jobs], isSubmit2Event x = false := by
        intro x hx
        rcases List.mem_cons.mp hx with rfl | hx
        · rfl
        rcases List.mem_cons.mp hx with rfl | hx
        · rfl
        rcases List.mem_cons.mp hx with rfl | hx
        · rfl
        · exact absurd hx (List.not_mem_nil x)
      have hL3 : ∀ x ∈ [Event.enter StateName.submitStep2Jobs],
          isSubmit2Event x = false := by
        intro x hx
        rcases List.mem_cons.mp hx with rfl | hx
        · rfl
        · exact absurd hx (List.not_mem_nil x)
      cases h3 : (step2Seg env).2 with
      | some jg =>
        rw [run_eq_step2Fail h0 h1 h2 h3]
        simp only [List.append_assoc, List.cons_append, List.nil_append]
        exact mem_beforeFirst_block hterm hA0 step1Seg_no_submit2 hL3
      | none =>
        rw [run_eq_bothOk h0 h1 h2 h3]
        simp only [List.append_assoc, List.cons_append, List.nil_append]
        exact mem_beforeFirst_block hterm hA0 step1Seg_no_submit2 hL3
  · intro j1 hj1 hp hb
    have hs1 : (step1Seg env).2 ≠ none := by
      intro hnone
      have hall := phaseItems_none_iff.mp hnone
      rw [allItemsOk, List.all_eq_true] at hall
      have := hall j1 hj1
      simp [hp, hb] at this
    cases h0 : env.initError with
    | some d =>
      rw [run_eq_initFail h0]
      exact ⟨by intro j h; simp at h, by simp [isFailure]⟩
    | none =>
    cases h1 : env.calcError with
    | some d =>
      rw [run_eq_calcFail h0 h1]
      exact ⟨by intro j h; simp at h, by simp [isFailure]⟩
    | none =>
    cases h2 : (step1Seg env).2 with
    | none => exact absurd h2 hs1
    | some jf =>
      rw [run_eq_step1Fail h0 h1 h2]
      constructor
      · intro j hj
        rcases List.mem_append.mp hj with hj | hj
        · rcases List.mem_append.mp hj with hj | hj
          · simp at hj
          · exact absurd hj submit2_not_mem_step1Seg
        · exact absurd hj submit_not_mem_failTail
      · exact isFailure_failTail

/-- Witness for C1: in the all-good run the phase-1 terminal event precedes
every phase-2 submission, and in the run whose phase-1 job fails there is no
phase-2 submission and the execution fails. -/
theorem gwas_C1_witness :
    (Event.jobTerminal 1 step1Job .succeeded ∈
      beforeFirst isSubmit2Event (run envAllGood).1) ∧
    (Event.submit 2 chr1Job ∉ (run envStep1Fails).1) ∧
    isFailure (run envStep1Fails).2 = true :=
  ⟨((gwas_C1 envAllGood).1 ⟨chr1Job, by decide⟩).2 step1Job (by decide),
   ((gwas_C1 envStep1Fails).2 step1Job (by decide) rfl rfl).1 chr1Job,
   ((gwas_C1 envStep1Fails).2 step1Job (by decide) rfl rfl).2⟩

/-- No state-entry event lies in the phase-1 Map segment. -/
theorem enter_not_mem_step1Seg {env : Env} {s : StateName} :
    Event.enter s ∉ (step1Seg env).1 := enter_not_mem_phaseItems

/-- No state-entry event lies in the phase-2 Map segment. -/
theorem enter_not_mem_step2Seg {env : Env} {s : StateName} :
    Event.enter s ∉ (step2Seg env).1 := enter_not_mem_phaseItems

/-- No Map-segment event is the entry of the Fail state. -/
theorem isEnterWF_false_of_phaseItems {ph : Nat} {pOk : Job → Bool}
    {b : Job → JobOutcome} {l : List Job} :
    ∀ x ∈ (phaseItems ph pOk b l).1, isEnterWorkflowFailed x = false := by
  intro x hx
  rcases phaseItems_mem hx with ⟨j, rfl⟩ | ⟨j, o, rfl⟩ <;> rfl

/-- C2: the terminal Fail state is reachable only via the error-handler
step — its only incoming edge is from `HandleJobErrors`, both Map states
catch into `HandleJobErrors`, and on every execution that enters the Fail
state the error handler was invoked beforehand with the `workflowId` and the
non-empty failed-job detail list. -/
theorem gwas_C2 :
    (∀ s, StateName.workflowFailed ∈ successors s →
      s = StateName.handleJobErrors) ∧
    catchTarget .submitStep1Jobs = some .handleJobErrors ∧
    catchTarget .submitStep2Jobs = some .handleJobErrors ∧
    ∀ env : Env, Event.enter .workflowFailed ∈ (run env).1 →
      failedItems env ≠ [] ∧
      Event.errorHandlerInvoked env.workflowId (failedItems env) ∈
        beforeFirst isEnterWorkflowFailed (run env).1 := by
  refine ⟨?_, rfl, rfl, ?_⟩
  · intro s hs
    cases s <;> simp_all [successors, nextState, catchTarget]
  · intro env h
    cases h0 : env.initError with
    | some d => rw [run_eq_initFail h0] at h; simp at h
    | none =>
    cases h1 : env.calcError with
    | some d => rw [run_eq_calcFail h0 h1] at h; simp at h
    | none =>
    cases h2 : (step1Seg env).2 with
    | some jf =>
      have hfi : failedItems env = [jf] := by
        unfold failedItems; rw [h2]
      cases he : env.errorHandlerError with
      | some d =>
        rw [run_eq_step1Fail h0 h1 h2] at h
        rcases List.mem_append.mp h with h | h
        · rcases List.mem_append.mp h with h | h
          · simp at h
          · exact absurd h enter_not_mem_step1Seg
        · simp [failTail, he] at h
      | none =>
        rw [run_eq_step1Fail h0 h1 h2, hfi]
        refine ⟨by simp [hfi], ?_⟩
        have hft : (failTail env [jf]).1 =
            [Event.enter .handleJobErrors,
             Event.errorHandlerInvoked env.workflowId [jf]] ++
            [Event.enter .workflowFailed] := by
          simp [failTail, he]
        rw [hft, ← List.append_assoc]
        apply mem_beforeFirst_of_mem
        · exact List.mem_append_right _ (by simp)
        · intro x hx
          rcases List.mem_append.mp hx with hx | hx
          · rcases List.mem_append.mp hx with hx | hx
            · rcases List.mem_cons.mp hx with rfl | hx
              · rfl
              rcases List.mem_cons.mp hx with rfl | hx
              · rfl
              rcases List.mem_cons.mp hx with rfl | hx
              · rfl
              · exact absurd hx (List.not_mem_nil x)
            · exact isEnterWF_false_of_phaseItems x hx
          · rcases List.mem_cons.mp hx with rfl | hx
            · rfl
            rcases List.mem_cons.mp hx with rfl | hx
            · rfl
            · exact absurd hx (List.not_mem_nil x)
    | none =>
    cases h3 : (step2Seg env).2 with
    | some jg =>
      have hfi : failedItems env = [jg] := by
        unfold failedItems; rw [h2, h3]
      cases he : env.errorHandlerError with
      | some d =>
        rw [run_eq_step2Fail h0 h1 h2 h3] at h
        rcases List.mem_append.mp h with h | h
        · rcases List.mem_append.mp h with h | h
          · rcases List.mem_append.mp h with h | h
            · rcases List.mem_append.mp h with h | h
              · simp at h
              · exact absurd h enter_not_mem_step1Seg
            · simp at h
          · exact absurd h enter_not_mem_step2Seg
        · simp [failTail, he] at h
      | none =>
        rw [run_eq_step2Fail h0 h1 h2 h3, hfi]
        refine ⟨by simp [hfi], ?_⟩
        have hft : (failTail env [jg]).1 =
            [Event.enter .handleJobErrors,
             Event.errorHandlerInvoked env.workflowId [jg]] ++
            [Event.enter .workflowFailed] := by
          simp [failTail, he]
        rw [hft, ← List.append_assoc]
        apply mem_beforeFirst_of_mem
        · exact List.mem_append_right _ (by simp)
        · intro x hx
          rcases List.mem_append.mp hx with hx | hx
          · rcases List.mem_append.mp hx with hx | hx
            · rcases List.mem_append.mp hx with hx | hx
              · rcases List.mem_append.mp hx with hx | hx
                · rcases List.mem_cons.mp hx with rfl | hx
                  · rfl
                  rcases List.mem_cons.mp hx with rfl | hx
                  · rfl
                  rcases List.mem_cons.mp hx with rfl | hx
                  · rfl
                  · exact absurd hx (List.not_mem_nil x)
                · exact isEnterWF_false_of_phaseItems x hx
              · rcases List.mem_cons.mp hx with rfl | hx
                · rfl
                · exact absurd hx (List.not_mem_nil x)
            · exact isEnterWF_false_of_phaseItems x hx
          · rcases List.mem_cons.mp hx with rfl | hx
            · rfl
            rcases List.mem_cons.mp hx with rfl | hx
            · rfl
            · exact absurd hx (List.not_mem_nil x)
    | none =>
      rw [run_eq_bothOk h0 h1 h2 h3] at h
      rcases List.mem_append.mp h with h | h
      · rcases List.mem_append.mp h with h | h
        · rcases List.mem_append.mp h with h | h
          · rcases List.mem_append.mp h with h | h
            · simp at h
            · exact absurd h enter_not_mem_step1Seg
          · simp at h
        · exact absurd h enter_not_mem_step2Seg
      · rcases mem_successTail h with h | h | h <;> cases h

/-- Witness for C2: the failing-phase-1 run enters the Fail state, and the
error handler is invoked before it with the details of the failed job. -/
theorem gwas_C2_witness :
    failedItems envStep1Fails ≠ [] ∧
    Event.errorHandlerInvoked envStep1Fails.workflowId
        (failedItems envStep1Fails) ∈
      beforeFirst isEnterWorkflowFailed (run envStep1Fails).1 :=
  gwas_C2.2.2.2 envStep1Fails (by decide)

/-- C3: a failure of the workflow-init Lambda or of the job-calculator
Lambda ends the execution right there, before any Map state is entered and
before any job submission, with the structured error detail carried on the
terminal failed status. -/
theorem gwas_C3 (env : Env) (d : String) :
    (env.initError = some d →
      run env = ([Event.enter .initializeWorkflow], .aborted d)) ∧
    (env.initError = none → env.calcError = some d →
      run env = ([Event.enter .initializeWorkflow,
        Event.enter .calculateBatchJobs], .aborted d)) :=
  ⟨fun h => run_eq_initFail h, fun h0 h => run_eq_calcFail h0 h⟩

/-- Witness for C3: concrete runs whose init (respectively calculator)
Lambda raises a structured input error abort immediately with that detail
and zero submissions. -/
theorem gwas_C3_witness :
    run envInitFails = ([Event.enter .initializeWorkflow],
      .aborted "DataFormatError: unreadable variant index") ∧
    run envCalcFails = ([Event.enter .initializeWorkflow,
      Event.enter .calculateBatchJobs],
      .aborted "NoChromosomesDetectedError") :=
  ⟨(gwas_C3 envInitFails "DataFormatError: unreadable variant index").1 rfl,
   (gwas_C3 envCalcFails "NoChromosomesDetectedError").2 rfl rfl⟩

/-- Counterexample for C4: the deployed Regenie Batch job definition sets
`retryStrategy.attempts` to 2, so a submission is not limited to a single
attempt — a failed attempt is automatically retried once by the execution
service. -/
theorem gwas_C4_counterexample :
    ¬ (regenieJobDefinition deployedRegenieProps).retryAttempts ≤ 1 := by
  decide

/-- C4 amended: every job submission carries the Batch job definition
setting `retryStrategy.attempts = 2` (one automatic retry of a failed attempt by the
execution service); the state machine itself configures no retrier on any
state, and both Map states surface failures to the error-handler step. -/
theorem gwas_C4_amended :
    ∀ p : RegenieJobDefProps,
      (regenieJobDefinition p).retryAttempts = 2 ∧
      (∀ s, stateRetrier s = none) ∧
      catchTarget .submitStep1Jobs = some .handleJobErrors ∧
      catchTarget .submitStep2Jobs = some .handleJobErrors :=
  fun _ => ⟨rfl, fun _ => rfl, rfl, rfl⟩

/-- Counterexample for C5: in a run whose plan has no phase-1 job, the
phase-1 Map state is still entered — the transition out of
`CalculateBatchJobs` is unconditional. -/
theorem gwas_C5_counterexample :
    envNoStep1.step1Jobs = [] ∧
    Event.enter .submitStep1Jobs ∈ (run envNoStep1).1 := by
  decide

/-- C5 amended: when the plan has no phase-1 job, the phase-1 Map state is
entered anyway (the `CalculateBatchJobs → SubmitStep1Jobs` edge is
unconditional) but performs zero iterations — no phase-1 submission occurs —
and it immediately passes to the phase-2 Map state. -/
theorem gwas_C5_amended (env : Env) (h0 : env.initError = none)
    (h1 : env.calcError = none) (h3 : env.step1Jobs = []) :
    (∃ suf, (run env).1 =
      Event.enter .initializeWorkflow :: Event.enter .calculateBatchJobs ::
      Event.enter .submitStep1Jobs :: Event.enter .submitStep2Jobs :: suf) ∧
    (∀ j, Event.submit 1 j ∉ (run env).1) ∧
    nextState .calculateBatchJobs = some .submitStep1Jobs := by
  have h2 : (step1Seg env).2 = none := by
    simp [step1Seg, h3, phaseItems]
  have h2e : (step1Seg env).1 = [] := by
    simp [step1Seg, h3, phaseItems]
  refine ⟨?_, ?_, rfl⟩
  · cases h3s : (step2Seg env).2 with
    | some jg =>
      refine ⟨(step2Seg env).1 ++ (failTail env [jg]).1, ?_⟩
      rw [run_eq_step2Fail h0 h1 h2 h3s, h2e]
      simp
    | none =>
      refine ⟨(step2Seg env).1 ++ (successTail env).1, ?_⟩
      rw [run_eq_bothOk h0 h1 h2 h3s, h2e]
      simp
  · intro j hj
    cases h3s : (step2Seg env).2 with
    | some jg =>
      rw [run_eq_step2Fail h0 h1 h2 h3s] at hj
      rcases List.mem_append.mp hj with hj | hj
      · rcases List.mem_append.mp hj with hj | hj
        · rcases List.mem_append.mp hj with hj | hj
          · rcases List.mem_append.mp hj with hj | hj
            · simp at hj
            · rw [h2e] at hj; exact absurd hj (List.not_mem_nil _)
          · simp at hj
        · exact absurd hj submit1_not_mem_step2Seg
      · exact absurd hj submit_not_mem_failTail
    | none =>
      rw [run_eq_bothOk h0 h1 h2 h3s] at hj
      rcases List.mem_append.mp hj with hj | hj
      · rcases List.mem_append.mp hj with hj | hj
        · rcases List.mem_append.mp hj with hj | hj
          · rcases List.mem_append.mp hj with hj | hj
            · simp at hj
            · rw [h2e] at hj; exact absurd hj (List.not_mem_nil _)
          · simp at hj
        · exact absurd hj submit1_not_mem_step2Seg
      · exact absurd hj submit_not_mem_successTail

/-- Witness for C5 amended: the concrete phase-2-only run enters the phase-1
Map state with zero phase-1 submissions and then the phase-2 Map state. -/
theorem gwas_C5_amended_witness :
    (∃ suf, (run envNoStep1).1 =
      Event.enter .initializeWorkflow :: Event.enter .calculateBatchJobs ::
      Event.enter .submitStep1Jobs :: Event.enter .submitStep2Jobs :: suf) ∧
    (Event.submit 1 step1Job ∉ (run envNoStep1).1) :=
  ⟨(gwas_C5_amended envNoStep1 rfl rfl rfl).1,
   (gwas_C5_amended envNoStep1 rfl rfl rfl).2.1 step1Job⟩

/-- The failure branch never yields the completed status. -/
theorem failTail_ne_completed {env : Env} {fj : List Job} :
    (failTail env fj).2 ≠ .completed := by
  cases he : env.errorHandlerError with
  | some d => simp [failTail, he]
  | none => simp [failTail, he]

/-- No Map-segment event is the entry of the Succeed state. -/
theorem isEnterWS_false_of_phaseItems {ph : Nat} {pOk : Job → Bool}
    {b : Job → JobOutcome} {l : List Job} :
    ∀ x ∈ (phaseItems ph pOk b l).1, isEnterWorkflowSucceeded x = false := by
  intro x hx
  rcases phaseItems_mem hx with ⟨j, rfl⟩ | ⟨j, o, rfl⟩ <;> rfl

/-- Counterexample for C6: a run in which every submitted phase-2 job
succeeded but which does not reach the terminal succeeded status, because
the success-handler Lambda invocation itself failed. -/
theorem gwas_C6_counterexample :
    submittedPhase2AllSucceeded envSuccessFails = true ∧
    Event.submit 2 chr1Job ∈ (run envSuccessFails).1 ∧
    (run envSuccessFails).2 ≠ .completed := by
  decide

/-- C6 amended: an execution reaches the terminal COMPLETED status exactly
when initialization, job calculation, every phase-1 item, every phase-2 item
and the success-handler invocation all succeed (so COMPLETED still implies
every submitted phase-2 job succeeded); and on every COMPLETED path the
success handler is invoked — receiving the workflowId, the results bucket
path and the completion time — strictly before the Succeed state is
entered. -/
theorem gwas_C6_amended (env : Env) :
    ((run env).2 = .completed ↔
      (env.initError = none ∧ env.calcError = none ∧
       allItemsOk env.parse1Ok env.batch1 env.step1Jobs = true ∧
       allItemsOk env.parse2Ok env.batch2 env.step2Jobs = true ∧
       env.successError = none)) ∧
    ((run env).2 = .completed →
      Event.successHandlerInvoked env.workflowId env.resultsBucketPath
        env.enteredTime ∈
        beforeFirst isEnterWorkflowSucceeded (run env).1) := by
  have hmp : (run env).2 = .completed →
      (env.initError = none ∧ env.calcError = none ∧
       allItemsOk env.parse1Ok env.batch1 env.step1Jobs = true ∧
       allItemsOk env.parse2Ok env.batch2 env.step2Jobs = true ∧
       env.successError = none) := by
    intro hc
    cases h0 : env.initError with
    | some d => rw [run_eq_initFail h0] at hc; simp at hc
    | none =>
    cases h1 : env.calcError with
    | some d => rw [run_eq_calcFail h0 h1] at hc; simp at hc
    | none =>
    cases h2 : (step1Seg env).2 with
    | some jf =>
      rw [run_eq_step1Fail h0 h1 h2] at hc
      exact absurd hc failTail_ne_completed
    | none =>
    cases h3 : (step2Seg env).2 with
    | some jg =>
      rw [run_eq_step2Fail h0 h1 h2 h3] at hc
      exact absurd hc failTail_ne_completed
    | none =>
      rw [run_eq_bothOk h0 h1 h2 h3] at hc
      cases hs : env.successError with
      | some d => simp [successTail, hs] at hc
      | none =>
        exact ⟨rfl, rfl, phaseItems_none_iff.mp h2, phaseItems_none_iff.mp h3,
          rfl⟩
  constructor
  · constructor
    · exact hmp
    · rintro ⟨h0, h1, ha1, ha2, hs⟩
      have h2 : (step1Seg env).2 = none := phaseItems_none_iff.mpr ha1
      have h3 : (step2Seg env).2 = none := phaseItems_none_iff.mpr ha2
      rw [run_eq_bothOk h0 h1 h2 h3]
      simp [successTail, hs]
  · intro hc
    obtain ⟨h0, h1, ha1, ha2, hs⟩ := hmp hc
    have h2 : (step1Seg env).2 = none := phaseItems_none_iff.mpr ha1
    have h3 : (step2Seg env).2 = none := phaseItems_none_iff.mpr ha2
    rw [run_eq_bothOk h0 h1 h2 h3]
    have hst : (successTail env).1 =
        [Event.enter .handleSuccess,
         Event.successHandlerInvoked env.workflowId env.resultsBucketPath
           env.enteredTime] ++ [Event.enter .workflowSucceeded] := by
      simp [successTail, hs]
    rw [hst, ← List.append_assoc]
    apply mem_beforeFirst_of_mem
    · exact List.mem_append_right _ (by simp)
    · intro x hx
      rcases List.mem_append.mp hx with hx | hx
      · rcases List.mem_append.mp hx with hx | hx
        · rcases List.mem_append.mp hx with hx | hx
          · rcases List.mem_append.mp hx with hx | hx
            · rcases List.mem_cons.mp hx with rfl | hx
              · rfl
              rcases List.mem_cons.mp hx with rfl | hx
              · rfl
              rcases List.mem_cons.mp hx with rfl | hx
              · rfl
              · exact absurd hx (List.not_mem_nil x)
            · exact isEnterWS_false_of_phaseItems x hx
          · rcases List.mem_cons.mp hx with rfl | hx
            · rfl
            · exact absurd hx (List.not_mem_nil x)
        · exact isEnterWS_false_of_phaseItems x hx
      · rcases List.mem_cons.mp hx with rfl | hx
        · rfl
        rcases List.mem_cons.mp hx with rfl | hx
        · rfl
        · exact absurd hx (List.not_mem_nil x)

/-- Witness for C6 amended: the all-good run completes, and its success
handler runs with the completion metadata before the Succeed state. -/
theorem gwas_C6_amended_witness :
    (run envAllGood).2 = .completed ∧
    Event.successHandlerInvoked envAllGood.workflowId
        envAllGood.resultsBucketPath envAllGood.enteredTime ∈
      beforeFirst isEnterWorkflowSucceeded (run envAllGood).1 := by
  have h := gwas_C6_amended envAllGood
  have hc : (run envAllGood).2 = .completed :=
    h.1.mpr ⟨rfl, rfl, by decide, by decide, rfl⟩
  exact ⟨hc, h.2 hc⟩

/-- Prepending a submission-free block preserves the serialized-submission
discipline. -/
theorem sfbt_append_left_no_submit {ph : Nat} {xs ys : List Event}
    (hxs : ∀ e ∈ xs, isSubmitOf ph e = false)
    (hys : submitsFollowedByTerminal ph ys = true) :
    submitsFollowedByTerminal ph (xs ++ ys) = true := by
  induction xs with
  | nil => simpa using hys
  | cons e rest ih =>
    have hrest := ih fun x hx => hxs x (by simp [hx])
    cases e with
    | submit p j =>
      have := hxs (Event.submit p j) (by simp)
      simp only [isSubmitOf, decide_eq_false_iff_not] at this
      simp [submitsFollowedByTerminal, this, hrest]
    | enter s => simpa [submitsFollowedByTerminal] using hrest
    | jobTerminal p j o => simpa [submitsFollowedByTerminal] using hrest
    | errorHandlerInvoked w fj => simpa [submitsFollowedByTerminal] using hrest
    | successHandlerInvoked w r t => simpa [submitsFollowedByTerminal] using hrest

/-- The failure branch contains no submission of any phase. -/
theorem isSubmitOf_false_failTail {env : Env} {fj : List Job} {ph : Nat} :
    ∀ e ∈ (failTail env fj).1, isSubmitOf ph e = false := by
  intro e he
  rcases mem_failTail he with rfl | rfl | rfl <;> rfl

/-- The success branch contains no submission of any phase. -/
theorem isSubmitOf_false_successTail {env : Env} {ph : Nat} :
    ∀ e ∈ (successTail env).1, isSubmitOf ph e = false := by
  intro e he
  rcases mem_successTail he with rfl | rfl | rfl <;> rfl

/-- The phase-2 Map segment contains no phase-1 submission event. -/
theorem isSubmitOf1_false_step2Seg {env : Env} :
    ∀ e ∈ (step2Seg env).1, isSubmitOf 1 e = false := by
  intro e he
  rcases phaseItems_mem he with ⟨j, rfl⟩ | ⟨j, o, rfl⟩ <;> rfl

/-- The phase-1 Map segment followed by a disciplined continuation is
disciplined. -/
theorem sfbt_step1Seg_append {env : Env} {ys : List Event}
    (hys : submitsFollowedByTerminal 1 ys = true) :
    submitsFollowedByTerminal 1 ((step1Seg env).1 ++ ys) = true :=
  sfbt_phaseItems_append hys

/-- C7: the phase-1 Map state has `maxConcurrency` 1, and on every execution
each phase-1 submission is immediately followed in the trace by that same
terminal event of the same job — at most one phase-1 job is in flight, and nothing
else is submitted while it is awaited. -/
theorem gwas_C7 (env : Env) :
    stateMaxConcurrency .submitStep1Jobs = some 1 ∧
    submitsFollowedByTerminal 1 (run env).1 = true := by
  refine ⟨rfl, ?_⟩
  have hA0 : ∀ e ∈ [Event.enter StateName.initializeWorkflow,
      Event.enter StateName.calculateBatchJobs,
      Event.enter StateName.submitStep1Jobs], isSubmitOf 1 e = false := by
    intro e he
    rcases List.mem_cons.mp he with rfl | he
    · rfl
    rcases List.mem_cons.mp he with rfl | he
    · rfl
    rcases List.mem_cons.mp he with rfl | he
    · rfl
    · exact absurd he (List.not_mem_nil e)
  have hEs2 : ∀ e ∈ [Event.enter StateName.submitStep2Jobs],
      isSubmitOf 1 e = false := by
    intro e he
    rcases List.mem_cons.mp he with rfl | he
    · rfl
    · exact absurd he (List.not_mem_nil e)
  cases h0 : env.initError with
  | some d => rw [run_eq_initFail h0]; rfl
  | none =>
  cases h1 : env.calcError with
  | some d => rw [run_eq_calcFail h0 h1]; rfl
  | none =>
  cases h2 : (step1Seg env).2 with
  | some jf =>
    rw [run_eq_step1Fail h0 h1 h2]
    simp only [List.append_assoc]
    exact sfbt_append_left_no_submit hA0
      (sfbt_step1Seg_append (sfbt_of_no_submit isSubmitOf_false_failTail))
  | none =>
  cases h3 : (step2Seg env).2 with
  | some jg =>
    rw [run_eq_step2Fail h0 h1 h2 h3]
    simp only [List.append_assoc]
    exact sfbt_append_left_no_submit hA0
      (sfbt_step1Seg_append (sfbt_append_left_no_submit hEs2
        (sfbt_append_left_no_submit isSubmitOf1_false_step2Seg
          (sfbt_of_no_submit isSubmitOf_false_failTail))))
  | none =>
    rw [run_eq_bothOk h0 h1 h2 h3]
    simp only [List.append_assoc]
    exact sfbt_append_left_no_submit hA0
      (sfbt_step1Seg_append (sfbt_append_left_no_submit hEs2
        (sfbt_append_left_no_submit isSubmitOf1_false_step2Seg
          (sfbt_of_no_submit isSubmitOf_false_successTail))))

/-- Admissible action sequences keep the in-flight count at or below the
Map bound at every point. -/
theorem flights_le_of_admissible {c : Nat} :
    ∀ {acts : List MapAction} {cur : Nat},
      mapAdmissibleFrom c cur acts = true → cur ≤ c →
      ∀ n ∈ flightsFrom cur acts, n ≤ c := by
  intro acts
  induction acts with
  | nil => intro cur _ _ n hn; simp [flightsFrom] at hn
  | cons a rest ih =>
    intro cur hadm hcur n hn
    cases a with
    | start i =>
      simp only [mapAdmissibleFrom, Bool.and_eq_true, decide_eq_true_eq] at hadm
      simp only [flightsFrom, List.mem_cons] at hn
      rcases hn with rfl | hn
      · omega
      · exact ih hadm.2 (by omega) n hn
    | finish i =>
      simp only [mapAdmissibleFrom, Bool.and_eq_true, decide_eq_true_eq] at hadm
      simp only [flightsFrom, List.mem_cons] at hn
      rcases hn with rfl | hn
      · omega
      · exact ih hadm.2 (by omega) n hn

/-- Counterexample for C8: the 50-job ceiling is an attribute of the
phase-2 Map state of the orchestrator itself (`maxConcurrency: 50`) and it is the
Map admission rule that refuses a 51st simultaneous in-flight item; the
only capacity bound of the external Batch environment is 1000 vCPUs — there is no
50-job ceiling on the execution-service side, and no stack property feeds
the Map bound. -/
theorem gwas_C8_counterexample :
    mapAdmissibleFrom 50 0 fiftyOneStarts = false ∧
    stateMaxConcurrency .submitStep2Jobs = some 50 ∧
    gwasComputeEnvironment.maxvCpus = 1000 ∧
    gwasJobQueue = { priority := 1, computeEnvironmentOrder := [1] } := by
  refine ⟨by decide, rfl, rfl, rfl⟩

/-- C8 amended: phase-2 submission fans out over all chromosome jobs subject
to the ceiling of 50 simultaneous in-flight items fixed on the phase-2 Map
state and enforced by the admission rule of the Map itself — every admissible
schedule keeps at most 50 items in flight — and on a successful run every
phase-2 job of the plan is submitted. -/
theorem gwas_C8_amended :
    stateMaxConcurrency .submitStep2Jobs = some 50 ∧
    (∀ acts : List MapAction, mapAdmissibleFrom 50 0 acts = true →
      ∀ n ∈ flightsFrom 0 acts, n ≤ 50) ∧
    ∀ env : Env, env.initError = none → env.calcError = none →
      allItemsOk env.parse1Ok env.batch1 env.step1Jobs = true →
      allItemsOk env.parse2Ok env.batch2 env.step2Jobs = true →
      ∀ j ∈ env.step2Jobs, Event.submit 2 j ∈ (run env).1 := by
  refine ⟨rfl, fun acts h => flights_le_of_admissible h (by omega), ?_⟩
  intro env h0 h1 ha1 ha2 j hj
  have h2 : (step1Seg env).2 = none := phaseItems_none_iff.mpr ha1
  have h3 : (step2Seg env).2 = none := phaseItems_none_iff.mpr ha2
  rw [run_eq_bothOk h0 h1 h2 h3]
  have hsub : Event.submit 2 j ∈ (step2Seg env).1 :=
    (phaseItems_none_mem h3 j hj).1
  exact List.mem_append_left _ (List.mem_append_right _ hsub)

/-- Witness for C8 amended: a small admissible schedule never exceeds the
bound, and in the all-good run both phase-2 jobs are submitted. -/
theorem gwas_C8_amended_witness :
    (2 ≤ 50 ∧ Event.submit 2 chr1Job ∈ (run envAllGood).1) ∧
    Event.submit 2 chr2Job ∈ (run envAllGood).1 :=
  ⟨⟨gwas_C8_amended.2.1 [MapAction.start 0, MapAction.start 1,
      MapAction.finish 0] (by decide) 2 (by simp [flightsFrom]),
    gwas_C8_amended.2.2 envAllGood rfl rfl (by decide) (by decide)
      chr1Job (by decide)⟩,
   gwas_C8_amended.2.2 envAllGood rfl rfl (by decide) (by decide)
     chr2Job (by decide)⟩

/-- C9: the two terminal states have no outgoing transition in the state
graph, and on every execution the entry of a terminal state is the very last
event of the trace — nothing happens after a terminal state is entered. -/
theorem gwas_C9 :
    (∀ s, isTerminal s = true → successors s = []) ∧
    ∀ (env : Env) (s : StateName), isTerminal s = true →
      Event.enter s ∈ (run env).1 →
      (run env).1.getLast? = some (Event.enter s) := by
  constructor
  · intro s h
    cases s <;> simp_all [isTerminal, successors, nextState, catchTarget]
  · intro env s hterm hmem
    cases h0 : env.initError with
    | some d =>
      rw [run_eq_initFail h0] at hmem
      simp at hmem
      subst hmem
      simp [isTerminal] at hterm
    | none =>
    cases h1 : env.calcError with
    | some d =>
      rw [run_eq_calcFail h0 h1] at hmem
      simp at hmem
      rcases hmem with rfl | rfl <;> simp [isTerminal] at hterm
    | none =>
    cases h2 : (step1Seg env).2 with
    | some jf =>
      cases he : env.errorHandlerError with
      | some d =>
        exfalso
        rw [run_eq_step1Fail h0 h1 h2] at hmem
        rcases List.mem_append.mp hmem with hx | hx
        · rcases List.mem_append.mp hx with hx | hx
          · simp at hx
            rcases hx with rfl | rfl | rfl <;> simp [isTerminal] at hterm
          · exact enter_not_mem_step1Seg hx
        · simp [failTail, he] at hx
          subst hx
          simp [isTerminal] at hterm
      | none =>
        have hft : (failTail env [jf]).1 =
            [Event.enter .handleJobErrors,
             Event.errorHandlerInvoked env.workflowId [jf]] ++
            [Event.enter .workflowFailed] := by
          simp [failTail, he]
        rw [run_eq_step1Fail h0 h1 h2, hft, ← List.append_assoc] at hmem ⊢
        rcases List.mem_append.mp hmem with hx | hx
        · exfalso
          rcases List.mem_append.mp hx with hx | hx
          · rcases List.mem_append.mp hx with hx | hx
            · simp at hx
              rcases hx with rfl | rfl | rfl <;> simp [isTerminal] at hterm
            · exact enter_not_mem_step1Seg hx
          · simp at hx
            subst hx
            simp [isTerminal] at hterm
        · simp at hx
          subst hx
          exact getLast_append_single
    | none =>
    cases h3 : (step2Seg env).2 with
    | some jg =>
      cases he : env.errorHandlerError with
      | some d =>
        exfalso
        rw [run_eq_step2Fail h0 h1 h2 h3] at hmem
        rcases List.mem_append.mp hmem with hx | hx
        · rcases List.mem_append.mp hx with hx | hx
          · rcases List.mem_append.mp hx with hx | hx
            · rcases List.mem_append.mp hx with hx | hx
              · simp at hx
                rcases hx with rfl | rfl | rfl <;> simp [isTerminal] at hterm
              · exact enter_not_mem_step1Seg hx
            · simp at hx
              subst hx
              simp [isTerminal] at hterm
          · exact enter_not_mem_step2Seg hx
        · simp [failTail, he] at hx
          subst hx
          simp [isTerminal] at hterm
      | none =>
        have hft : (failTail env [jg]).1 =
            [Event.enter .handleJobErrors,
             Event.errorHandlerInvoked env.workflowId [jg]] ++
            [Event.enter .workflowFailed] := by
          simp [failTail, he]
        rw [run_eq_step2Fail h0 h1 h2 h3, hft, ← List.append_assoc] at hmem ⊢
        rcases List.mem_append.mp hmem with hx | hx
        · exfalso
          rcases List.mem_append.mp hx with hx | hx
          · rcases List.mem_append.mp hx with hx | hx
            · rcases List.mem_append.mp hx with hx | hx
              · rcases List.mem_append.mp hx with hx | hx
                · simp at hx
                  rcases hx with rfl | rfl | rfl <;> simp [isTerminal] at hterm
                · exact enter_not_mem_step1Seg hx
              · simp at hx
                subst hx
                simp [isTerminal] at hterm
            · exact enter_not_mem_step2Seg hx
          · simp at hx
            subst hx
            simp [isTerminal] at hterm
        · simp at hx
          subst hx
          exact getLast_append_single
    | none =>
      cases hs : env.successError with
      | some d =>
        exfalso
        rw [run_eq_bothOk h0 h1 h2 h3] at hmem
        rcases List.mem_append.mp hmem with hx | hx
        · rcases List.mem_append.mp hx with hx | hx
          · rcases List.mem_append.mp hx with hx | hx
            · rcases List.mem_append.mp hx with hx | hx
              · simp at hx
                rcases hx with rfl | rfl | rfl <;> simp [isTerminal] at hterm
              · exact enter_not_mem_step1Seg hx
            · simp at hx
              subst hx
              simp [isTerminal] at hterm
          · exact enter_not_mem_step2Seg hx
        · simp [successTail, hs] at hx
          subst hx
          simp [isTerminal] at hterm
      | none =>
        have hst : (successTail env).1 =
            [Event.enter .handleSuccess,
             Event.successHandlerInvoked env.workflowId env.resultsBucketPath
               env.enteredTime] ++
            [Event.enter .workflowSucceeded] := by
          simp [successTail, hs]
        rw [run_eq_bothOk h0 h1 h2 h3, hst, ← List.append_assoc] at hmem ⊢
        rcases List.mem_append.mp hmem with hx | hx
        · exfalso
          rcases List.mem_append.mp hx with hx | hx
          · rcases List.mem_append.mp hx with hx | hx
            · rcases List.mem_append.mp hx with hx | hx
              · rcases List.mem_append.mp hx with hx | hx
                · simp at hx
                  rcases hx with rfl | rfl | rfl <;> simp [isTerminal] at hterm
                · exact enter_not_mem_step1Seg hx
              · simp at hx
                subst hx
                simp [isTerminal] at hterm
            · exact enter_not_mem_step2Seg hx
          · simp at hx
            subst hx
            simp [isTerminal] at hterm
        · simp at hx
          subst hx
          exact getLast_append_single

/-- Witness for C9: in the all-good run the Succeed-state entry is the last
event, and in the failing-phase-1 run the Fail-state entry is the last
event. -/
theorem gwas_C9_witness :
    (run envAllGood).1.getLast? =
      some (Event.enter .workflowSucceeded) ∧
    (run envStep1Fails).1.getLast? =
      some (Event.enter .workflowFailed) :=
  ⟨gwas_C9.2 envAllGood .workflowSucceeded rfl (by decide),
   gwas_C9.2 envStep1Fails .workflowFailed rfl (by decide)⟩

/-- C10: the manifest EventBridge rule matches exactly the Object Created
events of the data bucket whose key ends in `.json` — the key pattern is a
bare suffix condition, with no constraint tying the name to `manifest.json`
— and the rule feeds the SNS topic, which feeds the SQS queue, which drives
the manifest processor Lambda. -/
theorem gwas_C10 :
    (∀ (b : String) (e : S3ObjectCreatedEvent),
      manifestRuleMatches b e = true ↔
        (e.source = "aws.s3" ∧ e.detailType = "Object Created" ∧
         e.bucketName = b ∧ strEndsWith e.objectKey ".json" = true)) ∧
    triggerEdge .s3EventRule = some .manifestTopic ∧
    triggerEdge .manifestTopic = some .manifestQueue ∧
    triggerEdge .manifestQueue = some .manifestProcessorFn := by
  refine ⟨?_, rfl, rfl, rfl⟩
  intro b e
  simp [manifestRuleMatches, and_assoc]

/-- Witness for C10: a JSON upload that is not named `manifest.json` matches
the rule. -/
theorem gwas_C10_witness :
    manifestRuleMatches "gwas-data-bucket"
      { source := "aws.s3", detailType := "Object Created"
      , bucketName := "gwas-data-bucket"
      , objectKey := "cohort7/phenotypes.json" } = true :=
  (gwas_C10.1 "gwas-data-bucket" _).mpr ⟨rfl, rfl, rfl, by decide⟩
